import Mathlib

/-!
Verification of the budapest-market scraper (src/Python/GetUrls.py and
src/Python/ExtractDataFromUrl.py).

The BeautifulSoup/network layer is treated as an external collaborator, as
the spec prescribes: a parsed detail page is modelled by the results of the
soup queries the extractor performs (meta contents, title string, text
nodes in document order, the stringified map-widget tags, the listing-id
element, the table cells).  The regular expressions that the source
compiles are embedded as explicit matchers over `List Char`, faithful to
Python `re.search` semantics (leftmost match, greedy quantifiers with
backtracking) for each concrete pattern.  Exceptions are modelled with
`Option`/`Except`: `none` at a bind is a raised exception.
-/

namespace BudapestMarket

/-- Python `\s` (ASCII whitespace classes used by the source's patterns). -/
def isSpacePy (c : Char) : Bool :=
  c = ' ' || c = '\t' || c = '\n' || c = '\r' || c = '\x0b' || c = '\x0c'

/-- ASCII `[A-Z]`, the literal range in the `varos` pattern. -/
def isUpperAZ (c : Char) : Bool :=
  'A' ≤ c && c ≤ 'Z'

/-- Substring test on character lists (semantics of `re.search` for a
pattern that is a string literal, and of BeautifulSoup `find(text=regex)`
marker matching). -/
def containsSeg (p : List Char) : List Char → Bool
  | [] => p.isPrefixOf ([] : List Char)
  | c :: r => p.isPrefixOf (c :: r) || containsSeg p r

/-- `re.search`: try the matcher at every start position, leftmost first. -/
def scanFirst (f : List Char → Option α) : List Char → Option α
  | [] => none
  | c :: rest =>
    match f (c :: rest) with
    | some r => some r
    | none => scanFirst f rest

/-- Python `str.replace(pat, rep)` with a nonempty pattern: non-overlapping
replacement scanning left to right.  Structural recursion on a fuel bound
(the input length) so that the definition evaluates in the kernel. -/
def replaceLAux (p0 : Char) (ps rep : List Char) : Nat → List Char → List Char
  | _, [] => []
  | 0, l => l
  | fuel + 1, c :: rest =>
    if (p0 :: ps).isPrefixOf (c :: rest) then
      rep ++ replaceLAux p0 ps rep fuel (rest.drop ps.length)
    else
      c :: replaceLAux p0 ps rep fuel rest

def replaceL (p0 : Char) (ps rep l : List Char) : List Char :=
  replaceLAux p0 ps rep l.length l

/-- Python `str.replace` lifted to `String` (identity on an empty pattern,
which the source never uses). -/
def strReplace (s pat rep : String) : String :=
  match pat.data with
  | [] => s
  | p :: ps => ⟨replaceL p ps rep.data s.data⟩

/-- Source lines 28 and 46: `meta.replace('\n', '')`, `title.replace('\n', '')`. -/
def stripNewlines (s : String) : String :=
  ⟨s.data.filter (fun c => c ≠ '\n')⟩

/-- Model of `soup.find(text=re.compile(marker))`: first text node, in
document order, in which the marker pattern matches (substring test). -/
def findText (marker : String) : List String → Option String
  | [] => none
  | t :: ts => if containsSeg marker.data t.data then some t else findText marker ts

/-! ### Matchers for the concrete patterns compiled by the source -/

/-- Pattern `re.search("(\d+,?\d+)", _)` attempted at one start position: a greedy
digit run, optionally one comma followed by a second digit run; the match
needs at least two digits in total.  Returns `group(1)`. -/
def numAt (cs : List Char) : Option String :=
  let ds := cs.takeWhile Char.isDigit
  if ds.isEmpty then none
  else
    let rest := cs.drop ds.length
    if 2 ≤ ds.length then
      match rest with
      | ',' :: r2 =>
        let ds2 := r2.takeWhile Char.isDigit
        if ds2.isEmpty then some ⟨ds⟩ else some ⟨ds ++ ',' :: ds2⟩
      | _ => some ⟨ds⟩
    else
      match rest with
      | ',' :: r2 =>
        let ds2 := r2.takeWhile Char.isDigit
        if ds2.isEmpty then none else some ⟨ds ++ ',' :: ds2⟩
      | _ => none

/-- Pattern `re.search("(\d+\.?\d+)", _)` (balcony pattern) at one start
position: like `numAt` with `.` in place of `,`. -/
def balAt (cs : List Char) : Option String :=
  let ds := cs.takeWhile Char.isDigit
  if ds.isEmpty then none
  else
    let rest := cs.drop ds.length
    if 2 ≤ ds.length then
      match rest with
      | '.' :: r2 =>
        let ds2 := r2.takeWhile Char.isDigit
        if ds2.isEmpty then some ⟨ds⟩ else some ⟨ds ++ '.' :: ds2⟩
      | _ => some ⟨ds⟩
    else
      match rest with
      | '.' :: r2 =>
        let ds2 := r2.takeWhile Char.isDigit
        if ds2.isEmpty then none else some ⟨ds ++ '.' :: ds2⟩
      | _ => none

/-- Pattern `re.search("(\d+)", _)` at one start position. -/
def digitsAt (cs : List Char) : Option String :=
  let ds := cs.takeWhile Char.isDigit
  if ds.isEmpty then none else some ⟨ds⟩

/-- Pattern `re.search("(\d+\.\sker).let", _)` at one start position (the
district pattern of ExtractDataFromUrl.py, line 31: exactly one `\s`). -/
def districtAt (cs : List Char) : Option String :=
  let ds := cs.takeWhile Char.isDigit
  if ds.isEmpty then none
  else
    match cs.drop ds.length with
    | '.' :: c :: rest =>
      if isSpacePy c && ['k', 'e', 'r'].isPrefixOf rest then
        match rest.drop 3 with
        | x :: rest2 =>
          if x ≠ '\n' && ['l', 'e', 't'].isPrefixOf rest2 then
            some ⟨ds ++ '.' :: c :: ['k', 'e', 'r']⟩
          else none
        | [] => none
      else none
    | _ => none

/-- The district pattern as the specification claims it,
`(\d+\.\s*ker).let` (any number of whitespace characters), at one start
position. -/
def districtSpecAt (cs : List Char) : Option String :=
  let ds := cs.takeWhile Char.isDigit
  if ds.isEmpty then none
  else
    match cs.drop ds.length with
    | '.' :: rest =>
      let sp := rest.takeWhile isSpacePy
      let rest1 := rest.drop sp.length
      if ['k', 'e', 'r'].isPrefixOf rest1 then
        match rest1.drop 3 with
        | x :: rest2 =>
          if x ≠ '\n' && ['l', 'e', 't'].isPrefixOf rest2 then
            some ⟨ds ++ '.' :: sp ++ ['k', 'e', 'r']⟩
          else none
        | [] => none
      else none
    | _ => none

/-- Index of the last `')'` in a character list, if any. -/
def lastParenIdx : List Char → Option Nat
  | [] => none
  | c :: rest =>
    match lastParenIdx rest with
    | some j => some (j + 1)
    | none => if c = ')' then some 0 else none

/-- Pattern `re.search("\(([A-Z].+)\)", _)` at one start position: literal `(`, an
ASCII capital, then greedy `.+` (newline-free) up to the last reachable
`)`.  Returns `group(1)`. -/
def varosAt (cs : List Char) : Option String :=
  match cs with
  | '(' :: c :: rest =>
    if isUpperAZ c then
      let run := rest.takeWhile (fun x => x ≠ '\n')
      match lastParenIdx run with
      | some j => if 1 ≤ j then some ⟨c :: run.take j⟩ else none
      | none => none
    else none
  | _ => none

/-- Pattern `re.search("(47\.\d+),", _)` at one start position. -/
def latAt : List Char → Option String
  | '4' :: '7' :: '.' :: rest =>
    let ds := rest.takeWhile Char.isDigit
    if ds.isEmpty then none
    else
      match rest.drop ds.length with
      | ',' :: _ => some ⟨'4' :: '7' :: '.' :: ds⟩
      | _ => none
  | _ => none

/-- Pattern `re.search("(19\.\d+)", _)` at one start position. -/
def longAt : List Char → Option String
  | '1' :: '9' :: '.' :: rest =>
    let ds := rest.takeWhile Char.isDigit
    if ds.isEmpty then none else some ⟨'1' :: '9' :: '.' :: ds⟩
  | _ => none

/-- Pattern `re.search("/(\d+)#?", _)` at one start position (GetUrls.py
href pattern); the optional `#` does not affect `group(1)`. -/
def hrefAt : List Char → Option String
  | '/' :: rest =>
    let ds := rest.takeWhile Char.isDigit
    if ds.isEmpty then none else some ⟨ds⟩
  | _ => none

/-- Pattern `re.search("^(\d+)", s)` (anchored): the leading digit run. -/
def fullroomsSearch (s : String) : Option String :=
  let ds := s.data.takeWhile Char.isDigit
  if ds.isEmpty then none else some ⟨ds⟩

/-- The `fél` literal of the half-rooms pattern, preceded by zero or more
`.` characters (non-newline): the continuation of `.+fél` after its first
mandatory character. -/
def felTail : List Char → Bool
  | [] => false
  | c :: rest => ['f', 'é', 'l'].isPrefixOf (c :: rest) || (c ≠ '\n' && felTail rest)

/-- Tail `.+fél`: at least one non-newline character, then the literal `fél`. -/
def dotPlusFel : List Char → Bool
  | [] => false
  | c :: rest => c ≠ '\n' && felTail rest

/-- The half-rooms pattern `\+(\s?)(\d?).+fél` after the literal `+`, with
Python's backtracking order: `(\s?)` greedy, inside it `(\d?)` greedy, and
`.+` never constrains the groups.  Returns `(group(1), group(2))`. -/
def halfAtPlus (rest : List Char) : Option (String × String) :=
  match rest with
  | [] => none
  | c :: rest2 =>
    if isSpacePy c then
      match rest2 with
      | d :: rest3 =>
        if d.isDigit && dotPlusFel rest3 then some (⟨[c]⟩, ⟨[d]⟩)
        else if dotPlusFel rest2 then some (⟨[c]⟩, "")
        else if dotPlusFel rest then some ("", "")
        else none
      | [] =>
        if dotPlusFel rest then some ("", "") else none
    else if c.isDigit then
      if dotPlusFel rest2 then some ("", ⟨[c]⟩)
      else if dotPlusFel rest then some ("", "")
      else none
    else
      if dotPlusFel rest then some ("", "") else none

/-- Pattern `re.search("\+(\s?)(\d?).+fél", _)` at one start position. -/
def halfAt : List Char → Option (String × String)
  | '+' :: rest => halfAtPlus rest
  | _ => none

/-- Search `halfrooms_regex.search(rooms)` over the whole rooms text. -/
def halfroomsSearch (s : String) : Option (String × String) :=
  scanFirst halfAt s.data

/-! ### The Detail-Field Extractor (src/Python/ExtractDataFromUrl.py) -/

/-- A record field: the source's `values` row mixes strings and the
integer defaults `0`/`1`. -/
inductive Field where
  | str (s : String)
  | int (n : Int)
deriving DecidableEq, Repr

/-- A successfully fetched and parsed detail page, given by the results of
the soup queries the extractor performs (the BeautifulSoup layer is the
external collaborator of the spec):
`metaContents` = the `content` attributes of `soup.find_all('meta')`;
`titleString`  = `soup.find('title').string` (`none` when that raises or is null);
`texts`        = the document's text nodes in document order;
`coordStr`     = `str(soup.find_all(src=re.compile("center")))`;
`listingId`    = `soup.find('b', class_="listing-id").string` (`none` = no such tag);
`tds`          = for each `td`: `(td.string, td.next_element.next_element.next_element.string)`. -/
structure Page where
  metaContents : List String
  titleString : Option String
  texts : List String
  coordStr : String
  listingId : Option String
  tds : List (Option String × String)
deriving Repr

/-- Lines 48–54: the price pipeline applied to the first "Ft" text node.
Two `search(...).group(1)` calls (a failing search raises, modelled by
`none`), with `.replace(" Ft", "")` and `.replace(",", ".")` between. -/
def priceOfFtText (t : String) : Option String :=
  match scanFirst numAt t.data with
  | none => none
  | some g =>
    let p1 := strReplace g " Ft" ""
    match scanFirst numAt p1.data with
    | none => none
    | some g2 => some (strReplace g2 "," ".")

/-- Lines 60–61: `area_regex.search(area).group(1)` with `(\d+)`. -/
def areaOfText (t : String) : Option String :=
  scanFirst digitsAt t.data

/-- Lines 67–71: `fullrooms` — `^(\d+)` with integer default 0. -/
def fullroomsVal (rooms : String) : Field :=
  match fullroomsSearch rooms with
  | none => .int 0
  | some g => .str g

/-- Lines 73–79: `halfrooms` — `\+(\s?)(\d?).+fél`; no match gives the
integer 0, an empty `group(1)` gives the integer 1, otherwise `group(2)`. -/
def halfroomsVal (rooms : String) : Field :=
  match halfroomsSearch rooms with
  | none => .int 0
  | some (g1, g2) => if g1 = "" then .int 1 else .str g2

/-- Lines 31–35: district with the `(\d+\.\sker).let` pattern; no match
gives the empty string. -/
def districtOf (meta : String) : String :=
  match scanFirst districtAt meta.data with
  | none => ""
  | some g => g

/-- The district field as the specification describes it, with
`(\d+\.\s*ker).let`. -/
def districtSpecOf (meta : String) : String :=
  match scanFirst districtSpecAt meta.data with
  | none => ""
  | some g => g

/-- Lines 38–42: varos (city-area) with `\(([A-Z].+)\)`; no match gives
the empty string. -/
def varosOf (meta : String) : String :=
  match scanFirst varosAt meta.data with
  | none => ""
  | some g => g

/-- The fourteen attribute-table fields, lines 94–107 defaults. -/
structure TdFields where
  condition : String := ""
  floor : String := ""
  storeys : String := ""
  lift : String := ""
  ceiling : String := ""
  heating : String := ""
  aircon : String := ""
  bathtoil : String := ""
  orient : String := ""
  view : String := ""
  balcony : Field := .str ""
  parking : String := ""
  garcess : String := ""
  utility : String := ""
deriving DecidableEq, Repr

/-- One iteration of the `for td in soup.find_all('td')` loop,
lines 108–141.  A `td.string` of `None` compares unequal to every label. -/
def tdStep (t : TdFields) : Option String × String → TdFields
  | (none, _) => t
  | (some l, v) =>
    if l = "Ingatlan állapota" then { t with condition := v }
    else if l = "Emelet" then { t with floor := v }
    else if l = "Épület szintjei" then { t with storeys := v }
    else if l = "Lift" then { t with lift := v }
    else if l = "Belmagasság" then { t with ceiling := v }
    else if l = "Fűtés" then { t with heating := v }
    else if l = "Légkondicionáló" then { t with aircon := v }
    else if l = "Fürdő és WC" then { t with bathtoil := v }
    else if l = "Tájolás" then { t with orient := v }
    else if l = "Kilátás" then { t with view := v }
    else if l = "Erkély" then
      { t with balcony :=
          match scanFirst balAt v.data with
          | none => .int 0
          | some g => .str g }
    else if l = "Parkolás" then { t with parking := v }
    else if l = "Tetőtér" then { t with garcess := v }
    else if l = "Komfort" then { t with utility := v }
    else t

def tdLoop (tds : List (Option String × String)) : TdFields :=
  tds.foldl tdStep {}

/-- Lines 144–148: the `values` row, in the source's exact order. -/
def mkValues (listing price area rooms : String) (fullrooms halfrooms : Field)
    (district varos : String) (t : TdFields) (lat long : String) : List Field :=
  [.str listing, .str price, .str area, .str rooms, fullrooms, halfrooms,
   .str district, .str varos, .str t.condition, .str t.floor, .str t.storeys,
   .str t.lift, .str t.heating, .str t.view, .str lat, .str long,
   .str t.orient, .str t.parking, t.balcony, .str t.aircon, .str t.ceiling,
   .str t.utility, .str t.bathtoil, .str t.garcess]

/-- The body of the per-URL `try` block, lines 26–150: straight-line field
extraction where any failing mandatory step raises (`none`); on success
the `values` row that `writer.writerows` emits. -/
def extract (p : Page) : Option (List Field) :=
  match p.metaContents.get? 4 with
  | none => none
  | some metaRaw =>
  let meta := stripNewlines metaRaw
  let district := districtOf meta
  let varos := varosOf meta
  match p.titleString with
  | none => none
  | some titleRaw =>
  let _title := stripNewlines titleRaw
  match findText "Ft" p.texts with
  | none => none
  | some priceText =>
  match priceOfFtText priceText with
  | none => none
  | some price =>
  match findText "m²" p.texts with
  | none => none
  | some areaText =>
  match areaOfText areaText with
  | none => none
  | some area =>
  match findText "szoba" p.texts with
  | none => none
  | some rooms =>
  let fullrooms := fullroomsVal rooms
  let halfrooms := halfroomsVal rooms
  match scanFirst latAt p.coordStr.data with
  | none => none
  | some lat =>
  match scanFirst longAt p.coordStr.data with
  | none => none
  | some long =>
  match p.listingId with
  | none => none
  | some listing =>
  let t := tdLoop p.tds
  some (mkValues listing price area rooms fullrooms halfrooms district varos t lat long)

/-- One input line of the Extractor's driving loop: either the fetch/parse
raises, or it yields a parsed page. -/
inductive UrlOutcome where
  | fetchFail
  | page (p : Page)

/-- Lines 14–158: the Extractor's main loop over the URL file, threading
the written records and `err_count`; any exception in an iteration is
caught, counted once, and the loop continues. -/
def extractorGo : List UrlOutcome → List (List Field) → Nat → List (List Field) × Nat
  | [], recs, errs => (recs, errs)
  | .fetchFail :: rest, recs, errs => extractorGo rest recs (errs + 1)
  | .page p :: rest, recs, errs =>
    match extract p with
    | none => extractorGo rest recs (errs + 1)
    | some r => extractorGo rest (recs ++ [r]) errs

def extractorRun (urls : List UrlOutcome) : List (List Field) × Nat :=
  extractorGo urls [] 0

/-- An iteration raises iff the fetch fails or the extraction raises. -/
def raisesE : UrlOutcome → Bool
  | .fetchFail => true
  | .page p => (extract p).isNone

/-! ### The Listing-URL Collector (src/Python/GetUrls.py) -/

/-- Line 42: `regex.search(tag['href']).group(1)` with `/(\d+)#?`; `none`
models the `AttributeError` raised on a null match. -/
def hrefSearch (href : String) : Option String :=
  scanFirst hrefAt href.data

/-- Lines 39–43: the `for tag in tags_a` loop building `href_list`; an
exception at any anchor (null regex match) aborts the whole loop. -/
def collectHrefs : List String → Option (List String)
  | [] => some []
  | tag :: rest =>
    match hrefSearch tag with
    | none => none
    | some i =>
      match collectHrefs rest with
      | none => none
      | some hs => some (("http://ingatlan.com/" ++ i) :: hs)

/-- Lines 39–46: `href_list` followed by `list(set(href_list))`; set
iteration order is unspecified, modelled by deduplication. -/
def pageUrls (tags : List String) : Option (List String) :=
  match collectHrefs tags with
  | none => none
  | some href_list => some href_list.dedup

/-- One results page of the Collector loop: the fetch/parse either raises
(caught by lines 27–33) or yields the selected anchors' hrefs. -/
inductive PageFetch where
  | fail
  | ok (tags : List String)

/-- Lines 20–50: the Collector's page loop.  A fetch/parse failure is
caught (`err_count + 1`, continue); an exception in the href loop
(lines 39–43) is outside the `try` block, so it terminates the whole run:
`.error` carries the URLs already written and the error count at the
moment of the crash. -/
def collectorGo : List PageFetch → List String → Nat →
    Except (List String × Nat) (List String × Nat)
  | [], acc, errs => .ok (acc, errs)
  | .fail :: rest, acc, errs => collectorGo rest acc (errs + 1)
  | .ok tags :: rest, acc, errs =>
    match pageUrls tags with
    | none => .error (acc, errs)
    | some us => collectorGo rest (acc ++ us) errs

/-! ### Helper lemmas -/

/-- Inversion principle for `extract`: a record is produced exactly when
every mandatory step succeeds, and then the record is the `values` row
built from the extracted pieces. -/
theorem extract_eq_some_iff (p : Page) (r : List Field) :
    extract p = some r ↔
    ∃ mr t0 pt price atext area rooms lat long listing,
      p.metaContents.get? 4 = some mr ∧
      p.titleString = some t0 ∧
      findText "Ft" p.texts = some pt ∧
      priceOfFtText pt = some price ∧
      findText "m²" p.texts = some atext ∧
      areaOfText atext = some area ∧
      findText "szoba" p.texts = some rooms ∧
      scanFirst latAt p.coordStr.data = some lat ∧
      scanFirst longAt p.coordStr.data = some long ∧
      p.listingId = some listing ∧
      r = mkValues listing price area rooms (fullroomsVal rooms) (halfroomsVal rooms)
            (districtOf (stripNewlines mr)) (varosOf (stripNewlines mr))
            (tdLoop p.tds) lat long := by
  constructor
  · intro h
    unfold extract at h
    split at h
    · exact Option.noConfusion h
    next mr hm =>
      split at h
      · exact Option.noConfusion h
      next t0 ht =>
        split at h
        · exact Option.noConfusion h
        next pt hpt =>
          split at h
          · exact Option.noConfusion h
          next price hprice =>
            split at h
            · exact Option.noConfusion h
            next atext hatext =>
              split at h
              · exact Option.noConfusion h
              next area harea =>
                split at h
                · exact Option.noConfusion h
                next rooms hrooms =>
                  split at h
                  · exact Option.noConfusion h
                  next lat hlat =>
                    split at h
                    · exact Option.noConfusion h
                    next long hlong =>
                      split at h
                      · exact Option.noConfusion h
                      next listing hlisting =>
                        exact ⟨mr, t0, pt, price, atext, area, rooms, lat, long, listing,
                          hm, ht, hpt, hprice, hatext, harea, hrooms, hlat, hlong, hlisting,
                          (Option.some.injEq _ _ ▸ h :).symm⟩
  · rintro ⟨mr, t0, pt, price, atext, area, rooms, lat, long, listing,
      hm, ht, hpt, hprice, hatext, harea, hrooms, hlat, hlong, hlisting, hr⟩
    subst hr
    simp only [extract, hm, ht, hpt, hprice, hatext, harea, hrooms, hlat, hlong, hlisting]

/-- A table cell whose label is not "Lift" leaves the lift field alone. -/
theorem tdStep_lift (t : TdFields) (td : Option String × String)
    (h : td.1 ≠ some "Lift") : (tdStep t td).lift = t.lift := by
  obtain ⟨lab, v⟩ := td
  cases lab with
  | none => rfl
  | some l =>
    have hl : l ≠ "Lift" := fun hh => h (by rw [hh])
    rw [tdStep.eq_2]
    rcases eq_or_ne l "Ingatlan állapota" with h1 | h1
    · rw [if_pos h1]
    rw [if_neg h1]
    rcases eq_or_ne l "Emelet" with h2 | h2
    · rw [if_pos h2]
    rw [if_neg h2]
    rcases eq_or_ne l "Épület szintjei" with h3 | h3
    · rw [if_pos h3]
    rw [if_neg h3]
    rcases eq_or_ne l "Lift" with h4 | h4
    · exact absurd h4 hl
    rw [if_neg h4]
    rcases eq_or_ne l "Belmagasság" with h5 | h5
    · rw [if_pos h5]
    rw [if_neg h5]
    rcases eq_or_ne l "Fűtés" with h6 | h6
    · rw [if_pos h6]
    rw [if_neg h6]
    rcases eq_or_ne l "Légkondicionáló" with h7 | h7
    · rw [if_pos h7]
    rw [if_neg h7]
    rcases eq_or_ne l "Fürdő és WC" with h8 | h8
    · rw [if_pos h8]
    rw [if_neg h8]
    rcases eq_or_ne l "Tájolás" with h9 | h9
    · rw [if_pos h9]
    rw [if_neg h9]
    rcases eq_or_ne l "Kilátás" with h10 | h10
    · rw [if_pos h10]
    rw [if_neg h10]
    rcases eq_or_ne l "Erkély" with h11 | h11
    · rw [if_pos h11]
    rw [if_neg h11]
    rcases eq_or_ne l "Parkolás" with h12 | h12
    · rw [if_pos h12]
    rw [if_neg h12]
    rcases eq_or_ne l "Tetőtér" with h13 | h13
    · rw [if_pos h13]
    rw [if_neg h13]
    rcases eq_or_ne l "Komfort" with h14 | h14
    · rw [if_pos h14]
    rw [if_neg h14]

/-- If no cell is labelled "Lift", the final lift field is the default. -/
theorem tdLoop_lift (tds : List (Option String × String))
    (h : ∀ td ∈ tds, td.1 ≠ some "Lift") : (tdLoop tds).lift = "" := by
  suffices hgen : ∀ t : TdFields, (tds.foldl tdStep t).lift = t.lift from hgen {}
  intro t
  induction tds generalizing t with
  | nil => rfl
  | cons td rest ih =>
    have hh := h td (by simp)
    simp only [List.foldl_cons]
    rw [ih (fun x hx => h x (by simp [hx])), tdStep_lift t td hh]

/-- If no text node contains the marker, the text search returns null. -/
theorem findText_none (marker : String) (ts : List String)
    (h : ∀ t ∈ ts, containsSeg marker.data t.data = false) :
    findText marker ts = none := by
  induction ts with
  | nil => rfl
  | cons t rest ih =>
    have ht := h t (by simp)
    simp only [findText, ht, Bool.false_eq_true, if_false]
    exact ih (fun x hx => h x (by simp [hx]))

/-- A null href match anywhere in the anchor list makes the whole href
loop raise. -/
theorem collectHrefs_none (tags : List String) (t : String) (ht : t ∈ tags)
    (h : hrefSearch t = none) : collectHrefs tags = none := by
  induction tags with
  | nil => cases ht
  | cons tag rest ih =>
    rcases List.mem_cons.mp ht with rfl | hmem
    · simp [collectHrefs, h]
    · simp only [collectHrefs]
      cases hrefSearch tag with
      | none => rfl
      | some i => rw [ih hmem]

/-- Counting invariant of the Extractor loop: every iteration either
raises (counted once) or appends exactly one record. -/
theorem extractorGo_spec (urls : List UrlOutcome) (recs : List (List Field)) (errs : Nat) :
    (extractorGo urls recs errs).2 = errs + urls.countP raisesE ∧
    (extractorGo urls recs errs).1.length + urls.countP raisesE =
      recs.length + urls.length := by
  induction urls generalizing recs errs with
  | nil => simp [extractorGo]
  | cons u rest ih =>
    cases u with
    | fetchFail =>
      have h2 := ih recs (errs + 1)
      simp only [extractorGo]
      simp [List.countP_cons, raisesE]
      omega
    | page p =>
      cases hext : extract p with
      | none =>
        have h2 := ih recs (errs + 1)
        simp only [extractorGo, hext]
        simp [List.countP_cons, raisesE, hext]
        omega
      | some r =>
        have h2 := ih (recs ++ [r]) errs
        simp only [extractorGo, hext]
        simp only [List.length_append, List.length_cons, List.length_nil] at h2
        simp [List.countP_cons, raisesE, hext]
        omega

/-! ### Concrete pages used by the witnesses -/

/-- A detail page on which every mandatory extraction step succeeds; it
has no "Lift" table row. -/
def samplePage : Page where
  metaContents := ["a", "b", "c", "d", "Eladó lakás, 5. kerület (Belváros) jó"]
  titleString := some "Nice flat"
  texts := ["31 900 000 Ft", "55 m²", "3 + 1 fél szoba"]
  coordStr := "[<img src=x?center=47.5,19.04&>]"
  listingId := some "22671289"
  tds := [(some "Emelet", "3"), (some "Erkély", "5.5 m2")]

/-- The record `extract` produces from `samplePage`. -/
def sampleRecord : List Field :=
  [.str "22671289", .str "31", .str "55", .str "3 + 1 fél szoba", .str "3",
   .str "1", .str "5. ker", .str "Belváros", .str "", .str "3", .str "",
   .str "", .str "", .str "", .str "47.5", .str "19.04", .str "", .str "",
   .str "5.5", .str "", .str "", .str "", .str "", .str ""]

/-- A successfully fetched and parsed page none of whose text nodes
contains "Ft". -/
def noFtPage : Page where
  metaContents := ["a", "b", "c", "d", "meta"]
  titleString := some "cím"
  texts := ["no price here", "55 m²"]
  coordStr := ""
  listingId := none
  tds := []

/-! ### The claims -/

/-- C1, counterexample: the claimed price normalizations are false on the
code.  The numeric pattern `(\d+,?\d+)` stops at the first space and after
a single comma group, so the fragment "31 900 000 Ft" yields price "31"
(not "31900000") and "1,234,567 Ft" yields "1.234" (not "1.234.567"). -/
theorem C1_price_area_counterexample :
    priceOfFtText "31 900 000 Ft" = some "31" ∧
    priceOfFtText "1,234,567 Ft" = some "1.234" ∧
    priceOfFtText "31 900 000 Ft" ≠ some "31900000" ∧
    priceOfFtText "1,234,567 Ft" ≠ some "1.234.567" := by decide

/-- C1, amended: for the "Ft" fragment "31 900 000 Ft" the extracted price
is "31", for "1,234,567 Ft" it is "1.234" (first digit-run with at most
one comma, comma then replaced by period), and for the "m²" fragment
"55 m²" the extracted area is "55". -/
theorem C1_price_area_fixtures :
    priceOfFtText "31 900 000 Ft" = some "31" ∧
    priceOfFtText "1,234,567 Ft" = some "1.234" ∧
    areaOfText "55 m²" = some "55" := by decide

/-- C2, counterexample: a results page with an anchor href "x" that does
not match `/(\d+)#?` does not reach the page-level exception handler;
the run aborts with the error counter still 0 and the following page
(anchor "/7#") is never processed, where the claim predicts a continued
run with one counted error. -/
theorem C2_bad_href_counterexample :
    collectorGo [PageFetch.ok ["x"], PageFetch.ok ["/7#"]] [] 0 =
      Except.error ([], 0) ∧
    collectorGo [PageFetch.ok ["x"], PageFetch.ok ["/7#"]] [] 0 ≠
      Except.ok (["http://ingatlan.com/7"], 1) := by
  refine ⟨rfl, fun hcontra => ?_⟩
  rw [show collectorGo [PageFetch.ok ["x"], PageFetch.ok ["/7#"]] [] 0 =
      Except.error ([], 0) from rfl] at hcontra
  exact Except.noConfusion hcontra

/-- C2, amended: an anchor href that does not match `/(\d+)#?` raises in
the href loop, which runs outside the `try` block: the whole Collector run
terminates at once — the error counter is not incremented, nothing is
emitted for that page, and no further page is processed. -/
theorem C2_bad_href_aborts_run (tags : List String) (t : String)
    (ht : t ∈ tags) (hbad : hrefSearch t = none)
    (rest : List PageFetch) (acc : List String) (errs : Nat) :
    pageUrls tags = none ∧
    collectorGo (PageFetch.ok tags :: rest) acc errs = Except.error (acc, errs) := by
  have hc : collectHrefs tags = none := collectHrefs_none tags t ht hbad
  have hp : pageUrls tags = none := by unfold pageUrls; rw [hc]
  refine ⟨hp, ?_⟩
  unfold collectorGo
  rw [hp]

/-- C2, witness for the amended theorem. -/
theorem C2_bad_href_aborts_run_witness :
    pageUrls ["x"] = none ∧
    collectorGo [PageFetch.ok ["x"], PageFetch.ok ["/7#"]] [] 0 =
      Except.error ([], 0) :=
  C2_bad_href_aborts_run ["x"] "x" (by simp) (by decide)
    [PageFetch.ok ["/7#"]] [] 0

/-- C3: over any input URL list, with E the number of iterations that
raise (fetch/parse failures or fatal field-extraction failures), the
Extractor's final reported error count is E and it writes exactly K − E
records. -/
theorem C3_record_and_error_count (urls : List UrlOutcome) :
    (extractorRun urls).2 = urls.countP raisesE ∧
    (extractorRun urls).1.length = urls.length - urls.countP raisesE := by
  have h := extractorGo_spec urls [] 0
  unfold extractorRun
  obtain ⟨h1, h2⟩ := h
  simp only [List.length_nil, Nat.zero_add] at h1 h2
  exact ⟨h1, by omega⟩

/-- C4: room parsing: "3 + 1 fél szoba" gives full_rooms "3" and
half_rooms "1"; "2 szoba" gives full_rooms "2" and half_rooms the integer
0; "4 + fél szoba" (empty digit capture) gives half_rooms the integer 1;
and whenever the half-room pattern has no match at all, half_rooms is 0. -/
theorem C4_room_parsing :
    fullroomsVal "3 + 1 fél szoba" = Field.str "3" ∧
    halfroomsVal "3 + 1 fél szoba" = Field.str "1" ∧
    fullroomsVal "2 szoba" = Field.str "2" ∧
    halfroomsVal "2 szoba" = Field.int 0 ∧
    halfroomsVal "4 + fél szoba" = Field.int 1 ∧
    ∀ s : String, halfroomsSearch s = none → halfroomsVal s = Field.int 0 := by
  refine ⟨by decide, by decide, by decide, by decide, by decide, fun s h => ?_⟩
  unfold halfroomsVal
  rw [h]

/-- C4, witness for the no-match hypothesis. -/
theorem C4_room_parsing_witness :
    halfroomsSearch "2 szoba" = none ∧ halfroomsVal "2 szoba" = Field.int 0 :=
  ⟨by decide, C4_room_parsing.2.2.2.2.2 "2 szoba" (by decide)⟩

/-- C5: every record the Extractor emits has exactly 24 fields in the
fixed order regardless of which optional source fields were located; in
particular, when no table cell is labelled "Lift" the lift column is still
present (index 11) as the empty-string default, never omitted. -/
theorem C5_fixed_record_shape (p : Page) (r : List Field)
    (h : extract p = some r) :
    r.length = 24 ∧
    ((∀ td ∈ p.tds, td.1 ≠ some "Lift") →
      r.get? 11 = some (Field.str "")) := by
  obtain ⟨mr, t0, pt, price, atext, area, rooms, lat, long, listing,
    hm, ht, hpt, hprice, hatext, harea, hrooms, hlat, hlong, hlisting, hr⟩ :=
    (extract_eq_some_iff p r).1 h
  subst hr
  refine ⟨rfl, fun hno => ?_⟩
  show some (Field.str (tdLoop p.tds).lift) = some (Field.str "")
  rw [tdLoop_lift p.tds hno]

/-- C5, witness at a concrete page with no "Lift" row. -/
theorem C5_fixed_record_shape_witness :
    extract samplePage = some sampleRecord ∧ sampleRecord.length = 24 ∧
    sampleRecord.get? 11 = some (Field.str "") :=
  ⟨by decide, (C5_fixed_record_shape samplePage sampleRecord (by decide)).1,
   (C5_fixed_record_shape samplePage sampleRecord (by decide)).2 (by decide)⟩

/-- C6: on a successfully fetched and parsed page with no "Ft" text node,
extraction raises inside the per-URL protected block: no record is
written, the shared error counter is incremented by one, and the loop
continues with the next URL — the iteration is indistinguishable from a
fetch failure. -/
theorem C6_missing_ft_is_fatal (p : Page)
    (h : ∀ t ∈ p.texts, containsSeg "Ft".data t.data = false) :
    extract p = none ∧
    ∀ rest recs errs,
      extractorGo (UrlOutcome.page p :: rest) recs errs =
        extractorGo (UrlOutcome.fetchFail :: rest) recs errs := by
  have hft : findText "Ft" p.texts = none := findText_none "Ft" p.texts h
  have he : extract p = none := by
    unfold extract
    cases hm : p.metaContents.get? 4 with
    | none => rfl
    | some mr =>
      cases ht : p.titleString with
      | none => rfl
      | some t0 => rw [hft]
  exact ⟨he, fun rest recs errs => by simp only [extractorGo, he]⟩

/-- C6, witness at a concrete page. -/
theorem C6_missing_ft_is_fatal_witness :
    extract noFtPage = none ∧
    extractorGo [UrlOutcome.page noFtPage] [] 0 =
      extractorGo [UrlOutcome.fetchFail] [] 0 :=
  ⟨(C6_missing_ft_is_fatal noFtPage (by decide)).1,
   (C6_missing_ft_is_fatal noFtPage (by decide)).2 [] [] 0⟩

/-- C7, counterexample: the code's district pattern has exactly one
mandatory whitespace (`\s`), not `\s*` as the claim states: on the meta
string "1.kerület" the claimed regex captures "1.ker" while the code
yields the empty district. -/
theorem C7_district_regex_counterexample :
    districtOf "1.kerület" = "" ∧
    districtSpecOf "1.kerület" = "1.ker" ∧
    districtOf "1.kerület" ≠ districtSpecOf "1.kerület" := by decide

/-- C7, amended: district is the first capture of `(\d+\.\sker).let` (one
mandatory whitespace) applied to the newline-stripped meta string, and
city-area the first capture of `\(([A-Z].+)\)`; a regex with no match
yields the empty string for its field without raising, and the emitted
record carries the two fields at indices 6 and 7. -/
theorem C7_district_varos_fields :
    (∀ (p : Page) (mr : String) (r : List Field),
      extract p = some r → p.metaContents.get? 4 = some mr →
      r.get? 6 = some (Field.str (districtOf (stripNewlines mr))) ∧
      r.get? 7 = some (Field.str (varosOf (stripNewlines mr)))) ∧
    (∀ m : String, scanFirst districtAt m.data = none → districtOf m = "") ∧
    (∀ m : String, scanFirst varosAt m.data = none → varosOf m = "") ∧
    districtOf "Eladó lakás, 5. kerület (Belváros)" = "5. ker" ∧
    varosOf "Eladó lakás, 5. kerület (Belváros)" = "Belváros" := by
  refine ⟨?_, ?_, ?_, by decide, by decide⟩
  · intro p mr r h hmr
    obtain ⟨mr2, t0, pt, price, atext, area, rooms, lat, long, listing,
      hm, ht, hpt, hprice, hatext, harea, hrooms, hlat, hlong, hlisting, hr⟩ :=
      (extract_eq_some_iff p r).1 h
    rw [hmr] at hm
    injection hm with hm2
    subst hm2
    subst hr
    exact ⟨rfl, rfl⟩
  · intro m hm
    unfold districtOf
    rw [hm]
  · intro m hm
    unfold varosOf
    rw [hm]

/-- C7, witness for the amended theorem. -/
theorem C7_district_varos_fields_witness :
    sampleRecord.get? 6 = some (Field.str (districtOf
      (stripNewlines "Eladó lakás, 5. kerület (Belváros) jó"))) ∧
    districtOf "nothing" = "" :=
  ⟨(C7_district_varos_fields.1 samplePage
      "Eladó lakás, 5. kerület (Belváros) jó" sampleRecord
      (by decide) (by decide)).1,
   C7_district_varos_fields.2.1 "nothing" (by decide)⟩

/-- C8: the URLs the Collector emits for a single results page contain no
duplicates: two anchors resolving to the same listing ID contribute one
instance of the corresponding absolute URL. -/
theorem C8_page_dedup (tags us : List String) (h : pageUrls tags = some us) :
    us.Nodup ∧ ∀ u ∈ us, us.count u = 1 := by
  have hex : ∃ hs, collectHrefs tags = some hs ∧ us = hs.dedup := by
    unfold pageUrls at h
    rcases hc : collectHrefs tags with _ | hs
    · rw [hc] at h
      simp at h
    · rw [hc] at h
      simp only [Option.some.injEq] at h
      exact ⟨hs, rfl, h.symm⟩
  obtain ⟨hs, hc, rfl⟩ := hex
  exact ⟨List.nodup_dedup hs,
    fun u hu => List.count_eq_one_of_mem (List.nodup_dedup hs) hu⟩

/-- C8, witness: two anchors with hrefs "/123#kep" and "/123" resolve to
the same listing URL, emitted exactly once. -/
theorem C8_page_dedup_witness :
    pageUrls ["/123#kep", "/123"] = some ["http://ingatlan.com/123"] ∧
    List.count "http://ingatlan.com/123" ["http://ingatlan.com/123"] = 1 :=
  ⟨by decide,
   (C8_page_dedup ["/123#kep", "/123"] ["http://ingatlan.com/123"]
      (by decide)).2 "http://ingatlan.com/123" (by decide)⟩

/-- C9: the emitted record's fourth column (index 3) is the raw text of
the first "szoba" text node, not a parsed count; and the computed title
never reaches the record: replacing the page title by any other string
yields the identical record. -/
theorem C9_raw_rooms_title_unused (p : Page) (r : List Field)
    (h : extract p = some r) :
    (∃ rooms, findText "szoba" p.texts = some rooms ∧
      r.get? 3 = some (Field.str rooms)) ∧
    (∀ t : String, extract { p with titleString := some t } = some r) := by
  obtain ⟨mr, t0, pt, price, atext, area, rooms, lat, long, listing,
    hm, ht, hpt, hprice, hatext, harea, hrooms, hlat, hlong, hlisting, hr⟩ :=
    (extract_eq_some_iff p r).1 h
  refine ⟨⟨rooms, hrooms, by rw [hr]; rfl⟩, fun t => ?_⟩
  exact (extract_eq_some_iff { p with titleString := some t } r).2
    ⟨mr, t, pt, price, atext, area, rooms, lat, long, listing,
     hm, rfl, hpt, hprice, hatext, harea, hrooms, hlat, hlong, hlisting, hr⟩

/-- C9, witness at a concrete page. -/
theorem C9_raw_rooms_title_unused_witness :
    extract samplePage = some sampleRecord ∧
    sampleRecord.get? 3 = some (Field.str "3 + 1 fél szoba") ∧
    extract { samplePage with titleString := some "another title" } =
      some sampleRecord :=
  ⟨by decide, by decide,
   (C9_raw_rooms_title_unused samplePage sampleRecord (by decide)).2
     "another title"⟩

/-- C10: when "+" is immediately followed by a digit with no intervening
space and the half-room pattern matches, group 1 (the whitespace capture)
is empty, so the default-to-1 branch fires and half_rooms is 1 regardless
of the digit's value. -/
theorem C10_plus_digit_half_rooms (d : Char)
    (hd : d ∈ ['0', '1', '2', '3', '4', '5', '6', '7', '8', '9']) :
    halfroomsSearch ("3 +" ++ (⟨[d]⟩ : String) ++ " fél szoba") =
      some ("", ⟨[d]⟩) ∧
    halfroomsVal ("3 +" ++ (⟨[d]⟩ : String) ++ " fél szoba") = Field.int 1 := by
  fin_cases hd <;> exact ⟨by decide, by decide⟩

/-- C10, witness at digit 7. -/
theorem C10_plus_digit_half_rooms_witness :
    halfroomsVal ("3 +" ++ (⟨['7']⟩ : String) ++ " fél szoba") = Field.int 1 :=
  (C10_plus_digit_half_rooms '7' (by decide)).2

end BudapestMarket
